import Mathlib

/-!
Verification of the semantic-retrieval core of the allowance search service.

The Python sources are shallowly embedded: pure methods become Lean
functions, Python floats become rationals, database tables become lists of
row structures, and external collaborators (the sentence-transformer model,
the cross-encoder, the SQL engine) become explicit oracle parameters.
Python `None` is `Option.none`; a Python function that can raise returns
`Except`.
-/

namespace VectorPipeline

/-! ## Text normalizer and builders (src/services/embedding_builder.py) -/

/-- Python `str.split()` with no separator: split on whitespace runs,
discarding empty pieces. `cur` accumulates the current word reversed. -/
def py_split_aux (cs : List Char) (cur : List Char) : List String :=
  match cs with
  | [] => if cur = [] then [] else [String.mk cur.reverse]
  | c :: rest =>
    if c.isWhitespace then
      if cur = [] then py_split_aux rest []
      else String.mk cur.reverse :: py_split_aux rest []
    else py_split_aux rest (c :: cur)

/-- Python `str.split()` with no separator. -/
def py_split (s : String) : List String :=
  py_split_aux s.toList []

/-- Python `str.lower()` (the metric names involved are ASCII). -/
def py_lower (s : String) : String :=
  String.mk (s.toList.map Char.toLower)

/-- `TextNormalizer.normalize`: `" ".join(value.split()).strip()` with a
falsy guard. `str.split()` yields no empty pieces, so the join already has
no surrounding whitespace and the final `strip()` is a no-op. `none` models
Python `None`. -/
def normalize (value : Option String) : String :=
  match value with
  | none => ""
  | some s =>
    if s = "" then ""
    else String.intercalate " " (py_split s)

/-- `AllowanceEmbeddingBuilder.build_document`: compose the cleaned fields in
fixed order, keeping the source quirks: raw-falsy subjects are dropped before
normalization, and the part list is re-filtered for truthiness before the
`" | "` join. -/
def build_document (name : String) (npa_name : String) (level : Option String)
    (subjects : Option (List String)) (validity_period : Option String) : String :=
  let cleaned_name := normalize (some name)
  let cleaned_npa := normalize (some npa_name)
  let cleaned_level := normalize level
  let cleaned_validity := normalize validity_period
  let name_parts := if cleaned_name ≠ "" then ["name: " ++ cleaned_name] else []
  let level_parts := if cleaned_level ≠ "" then ["level: " ++ cleaned_level] else []
  let npa_parts := if cleaned_npa ≠ "" then ["legal_basis: " ++ cleaned_npa] else []
  let subject_parts :=
    match subjects with
    | none => []
    | some l =>
      if l = [] then []
      else
        let cleaned_subjects := (l.filter (fun s => s ≠ "")).map (fun s => normalize (some s))
        if cleaned_subjects = [] then []
        else ["eligibility: " ++ String.intercalate "; " cleaned_subjects]
  let validity_parts := if cleaned_validity ≠ "" then ["validity: " ++ cleaned_validity] else []
  let parts := name_parts ++ level_parts ++ npa_parts ++ subject_parts ++ validity_parts
  let passage := String.intercalate " | " (parts.filter (fun p => p ≠ ""))
  if passage = "" then "" else "passage: " ++ passage

/-- `QueryEmbeddingBuilder.build_query`: normalize and mark the text with the
query convention of the embedding model. -/
def build_query (user_input : String) : String :=
  let cleaned := normalize (some user_input)
  if cleaned = "" then "" else "query: " ++ cleaned

/-! ## Data model (src/models/db) -/

/-- `Allowance` row: the catalog item fields read when building documents. -/
structure Allowance where
  id : ℤ
  name : String
  npa_name : String
  level : Option String
  subjects : Option (List String)
  validity_period : Option String
  deriving DecidableEq, Repr

/-- `AllowanceEmbedding` row: `allowance_id` is unique, `created_at` is set by
the database on insert (modelled as the clock value passed to the call). -/
structure AllowanceEmbeddingRow where
  rowId : ℕ
  allowance_id : ℤ
  embedding : List ℚ
  embedding_model : String
  created_at : ℕ
  deriving DecidableEq, Repr

/-- `EmbeddingSearchResult`: one allowance matched by vector similarity. -/
structure EmbeddingSearchResult where
  allowance : Allowance
  score : ℚ
  deriving DecidableEq, Repr

/-- `VectorSearchResultDTO`: the API-facing projection of a match. -/
structure VectorSearchResultDTO where
  allowance_id : ℤ
  allowance_name : String
  score : ℚ
  deriving DecidableEq, Repr

/-! ## Search orchestrator configuration (src/services/vector_search_service.py) -/

/-- The `settings.vector` fields that `VectorSearchService.__init__` reads. -/
structure VectorSearchConfig where
  search_limit : ℕ
  min_score_threshold : ℚ
  rerank_candidates : ℕ
  rerank_top_k : ℕ
  enable_rerank : Bool
  deriving DecidableEq, Repr

/-- The state of a constructed `VectorSearchService` (fields after the
normalizations the constructor applies). -/
structure VectorSearchService where
  default_limit : ℕ
  score_threshold : ℚ
  rerank_candidates : ℕ
  rerank_top_k : ℕ
  rerank_enabled : Bool
  deriving DecidableEq, Repr

/-- `VectorSearchService.__init__`: `_rerank_candidates` is raised to at least
the default limit, `_rerank_top_k` to at least 1, and reranking is enabled
only when a reranker instance was supplied. -/
def mkVectorSearchService (cfg : VectorSearchConfig) (has_reranker : Bool) : VectorSearchService :=
  { default_limit := cfg.search_limit
    score_threshold := cfg.min_score_threshold
    rerank_candidates := max cfg.rerank_candidates cfg.search_limit
    rerank_top_k := max 1 cfg.rerank_top_k
    rerank_enabled := cfg.enable_rerank && has_reranker }

/-- `VectorSearchService._filter_by_score`: a non-positive threshold disables
filtering; otherwise keep matches whose score is at or above it. The first
argument is the service field `_score_threshold`. -/
def filter_by_score (score_threshold : ℚ) (ms : List EmbeddingSearchResult) :
    List EmbeddingSearchResult :=
  if score_threshold ≤ 0 then ms
  else ms.filter (fun m => score_threshold ≤ m.score)

/-- Insert into a descending-sorted list, after every element with a
strictly greater score but before every element with an equal or smaller
one, so that elements processed earlier stay first among ties. -/
def insert_desc_by {α : Type} (score : α → ℚ) (x : α) : List α → List α
  | [] => [x]
  | y :: ys => if score x < score y then y :: insert_desc_by score x ys else x :: y :: ys

/-- CPython `sorted(key=score, reverse=True)`: a stable sort by descending
score, rendered as stable insertion sort. -/
def sort_desc_by {α : Type} (score : α → ℚ) : List α → List α
  | [] => []
  | x :: xs => insert_desc_by score x (sort_desc_by score xs)

/-- `VectorSearchService._truncate_sorted`: stable sort by descending score,
then take the first `limit`. -/
def truncate_sorted (ms : List EmbeddingSearchResult) (limit : ℕ) :
    List EmbeddingSearchResult :=
  (sort_desc_by EmbeddingSearchResult.score ms).take limit

/-- `VectorSearchService._sorted_by_score` on DTOs. -/
def sorted_by_score (results : List VectorSearchResultDTO) : List VectorSearchResultDTO :=
  sort_desc_by VectorSearchResultDTO.score results

/-- `VectorSearchService._to_dto`. -/
def to_dto (m : EmbeddingSearchResult) : VectorSearchResultDTO :=
  ⟨m.allowance.id, m.allowance.name, m.score⟩

/-- The document a match is rebuilt into for reranking (the
`document_builder.build_document` call inside `_build_documents`). -/
def document_of (m : EmbeddingSearchResult) : String :=
  build_document m.allowance.name m.allowance.npa_name m.allowance.level
    m.allowance.subjects m.allowance.validity_period

/-- `VectorSearchService._build_documents`: rebuild every candidate document
and keep only the non-empty ones (empty documents are silently skipped). -/
def build_documents (ms : List EmbeddingSearchResult) : List String :=
  (ms.map document_of).filter (fun d => d ≠ "")

/-- `VectorSearchService._rerank`. The cross-encoder is the oracle
`reranker_score query documents`, returning one float per scored pair as the
model does. `zip` with `strict=False` truncates to the shorter list, exactly
as `List.zip` does. -/
def rerank (svc : VectorSearchService) (reranker_score : String → List String → List ℚ)
    (user_query : String) (candidates : List EmbeddingSearchResult) (limit : ℕ) :
    List EmbeddingSearchResult :=
  if svc.rerank_enabled = false ∨ candidates = [] then truncate_sorted candidates limit
  else
    let query_for_rerank := normalize (some user_query)
    if query_for_rerank = "" then truncate_sorted candidates limit
    else
      let rerank_limit := min limit svc.rerank_top_k
      let pool := candidates.take (max svc.rerank_candidates rerank_limit)
      let documents := build_documents pool
      if documents = [] then truncate_sorted candidates limit
      else
        let scores := reranker_score query_for_rerank documents
        let scored := (pool.zip scores).map (fun p => ⟨p.1.allowance, p.2⟩)
        if scored = [] then truncate_sorted candidates limit
        else truncate_sorted scored rerank_limit

/-- Python `limit or self._default_limit`: `None` and `0` are falsy. -/
def py_or_limit (limit : Option ℕ) (default_limit : ℕ) : ℕ :=
  match limit with
  | none => default_limit
  | some n => if n = 0 then default_limit else n

/-- Which of the two suspects of claim C7 ran during a `search` call:
`embed_calls` counts `vectorizer.embed_text` invocations on the query and
`repo_search_calls` counts `embedding_repository.search_by_vector`
invocations. The `index_missing` backfill that precedes them touches
neither the query nor the search path. -/
structure SearchTrace where
  embed_calls : ℕ
  repo_search_calls : ℕ
  deriving DecidableEq, Repr

/-- `VectorSearchService.search`, after the `index_missing` backfill: the
vectorizer and the repository are oracles; the returned trace records which
of them were invoked. The function is total: every branch returns a result
list rather than raising. -/
def search (svc : VectorSearchService) (search_metric : String)
    (embed_oracle : String → List ℚ)
    (repo_oracle : List ℚ → ℕ → String → List EmbeddingSearchResult)
    (reranker_score : String → List String → List ℚ)
    (query_text : String) (limit : Option ℕ) :
    List VectorSearchResultDTO × SearchTrace :=
  let normalized_query := build_query query_text
  if normalized_query = "" then ([], ⟨0, 0⟩)
  else
    let vector := embed_oracle normalized_query
    if vector = [] then ([], ⟨1, 0⟩)
    else
      let requested_limit := py_or_limit limit svc.default_limit
      let search_limit := max requested_limit svc.rerank_candidates
      let matched := repo_oracle vector search_limit search_metric
      let filtered_matches := filter_by_score svc.score_threshold matched
      if filtered_matches = [] then ([], ⟨1, 1⟩)
      else
        let reranked := rerank svc reranker_score query_text filtered_matches requested_limit
        (sorted_by_score (reranked.map to_dto), ⟨1, 1⟩)

/-! ## Embedding repository (src/repositories/allowance_embedding_repository.py) -/

/-- `AllowanceEmbeddingRepository._clamp_similarity`. -/
def clamp_similarity (value : ℚ) : ℚ :=
  max (-1) (min 1 value)

/-- `AllowanceEmbeddingRepository._to_results_from_distance`: each database
row pairs an allowance with the raw distance; the score is `1/(1+d)` for L2
and `1-d` otherwise, clamped. -/
def to_results_from_distance (rows : List (Allowance × ℚ)) (normalize_l2 : Bool) :
    List EmbeddingSearchResult :=
  rows.map (fun r =>
    ⟨r.1, clamp_similarity (if normalize_l2 then 1 / (1 + r.2) else 1 - r.2)⟩)

/-- `AllowanceEmbeddingRepository._to_results_from_similarity`: the raw
database value is used directly, clamped. -/
def to_results_from_similarity (rows : List (Allowance × ℚ)) : List EmbeddingSearchResult :=
  rows.map (fun r => ⟨r.1, clamp_similarity r.2⟩)

/-- `AllowanceEmbeddingRepository.search_by_vector`: dispatch on the
lower-cased metric name; `rows` stands for the rows the generated SQL
statement returns (allowance paired with the raw distance or similarity
value computed by the database). Unknown metrics raise `ValueError`. -/
def search_by_vector (metric : String) (rows : List (Allowance × ℚ)) :
    Except String (List EmbeddingSearchResult) :=
  let normalized_metric := py_lower metric
  if normalized_metric = "cosine" ∨ normalized_metric = "cos" then
    .ok (to_results_from_distance rows false)
  else if normalized_metric = "dot" ∨ normalized_metric = "inner_product" then
    .ok (to_results_from_similarity rows)
  else if normalized_metric = "l2" ∨ normalized_metric = "euclidean" then
    .ok (to_results_from_distance rows true)
  else
    .error ("Unsupported search metric " ++ metric ++ ". Use cosine, dot, or l2.")

/-- `AllowanceEmbeddingRepository.upsert_embedding`: Postgres
`INSERT ... ON CONFLICT (allowance_id) DO UPDATE SET embedding, embedding_model`.
On conflict only the vector and the model tag are overwritten — `created_at`
has `server_default=func.now()` which fires on insert only, and `id` keeps
its value. `now` is the database clock at the call and `next_id` the sequence
value a fresh insert would take. Returns the table and the stored row
(`result.scalar_one()`). -/
def upsert_embedding (table : List AllowanceEmbeddingRow) (allowance_id : ℤ)
    (embedding : List ℚ) (model_name : String) (now : ℕ) (next_id : ℕ) :
    List AllowanceEmbeddingRow × AllowanceEmbeddingRow :=
  match table with
  | [] =>
    let r : AllowanceEmbeddingRow := ⟨next_id, allowance_id, embedding, model_name, now⟩
    ([r], r)
  | row :: rest =>
    if row.allowance_id = allowance_id then
      let r := { row with embedding := embedding, embedding_model := model_name }
      (r :: rest, r)
    else
      let step := upsert_embedding rest allowance_id embedding model_name now next_id
      (row :: step.1, step.2)

/-- `AllowanceEmbeddingRepository.list_allowances_without_embeddings`:
anti-join — allowances with no embedding row referencing them. -/
def list_allowances_without_embeddings (allowances : List Allowance)
    (table : List AllowanceEmbeddingRow) : List Allowance :=
  allowances.filter (fun a => table.all (fun r => r.allowance_id ≠ a.id))

/-- The uniqueness invariant of `allowance_embeddings.allowance_id`. -/
def RowsUnique (table : List AllowanceEmbeddingRow) : Prop :=
  table.Pairwise (fun r s => r.allowance_id ≠ s.allowance_id)

/-! ## Embedding sync service (src/services/allowance_embedding_service.py) -/

/-- `AllowanceEmbeddingService.index_allowance`: build the document, skip when
it is empty, embed it (oracle), skip when the vector is empty, otherwise
upsert. The database clock and sequence inputs of the upsert do not affect
the sync logic and are fixed here. -/
def index_allowance (embed_oracle : String → List ℚ) (model_name : String)
    (table : List AllowanceEmbeddingRow) (a : Allowance) : List AllowanceEmbeddingRow :=
  let document := build_document a.name a.npa_name a.level a.subjects a.validity_period
  if document = "" then table
  else
    let embedding := embed_oracle document
    if embedding = [] then table
    else (upsert_embedding table a.id embedding model_name 0 table.length).1

/-- `AllowanceEmbeddingService.index_many`: sequential indexing. -/
def index_many (embed_oracle : String → List ℚ) (model_name : String)
    (table : List AllowanceEmbeddingRow) (allowances : List Allowance) :
    List AllowanceEmbeddingRow :=
  allowances.foldl (index_allowance embed_oracle model_name) table

/-- `AllowanceEmbeddingService.index_missing`: fetch the allowances without
embeddings and index them. The Python method body has no `return value`
statement on any path, so the call expression always evaluates to `None`:
the second component is the Python return value, always `none`. -/
def index_missing (embed_oracle : String → List ℚ) (model_name : String)
    (allowances : List Allowance) (table : List AllowanceEmbeddingRow) :
    List AllowanceEmbeddingRow × Option ℤ :=
  let missing_allowances := list_allowances_without_embeddings allowances table
  if missing_allowances = [] then (table, none)
  else (index_many embed_oracle model_name table missing_allowances, none)

/-- Python `created == 0` where `created : int | None`: comparing `None`
with `0` under `==` yields `False`. -/
def py_eq_zero (created : Option ℤ) : Bool :=
  match created with
  | some n => n = 0
  | none => false

/-- `AllowanceVectorizationService.vectorize_missing_allowances`: run
`index_missing`, raise `EmbeddingNotFoundError` when the result equals `0`,
otherwise return it. The second component is `.error detail` for a raise and
`.ok value` for a normal return of the Python value. -/
def vectorize_missing_allowances (embed_oracle : String → List ℚ) (model_name : String)
    (allowances : List Allowance) (table : List AllowanceEmbeddingRow) :
    List AllowanceEmbeddingRow × Except String (Option ℤ) :=
  let created := index_missing embed_oracle model_name allowances table
  if py_eq_zero created.2 then
    (created.1, .error "No allowances without embeddings were found.")
  else
    (created.1, .ok created.2)

/-! ## Vectorizer lifecycle (src/services/vectorizer.py) -/

/-- `DEFAULT_LOAD_TIMEOUT_SECONDS = 300.0`. -/
def DEFAULT_LOAD_TIMEOUT_SECONDS : ℚ := 300

/-- `E5Vectorizer._resolve_timeout`: a non-positive configured timeout is
replaced with the default. -/
def resolve_timeout (configured_timeout : ℚ) : ℚ :=
  if 0 < configured_timeout then configured_timeout
  else DEFAULT_LOAD_TIMEOUT_SECONDS

/-- The constructor-initialized fields of `E5Vectorizer` that the load path
reads. -/
structure E5VectorizerState where
  model_name : String
  dimension : ℤ
  load_timeout_seconds : ℚ
  deriving DecidableEq, Repr

/-- `E5Vectorizer.__init__`: stores `_resolve_timeout(load_timeout_seconds)`. -/
def mkE5Vectorizer (model_name : String) (dimension : ℤ) (load_timeout_seconds : ℚ) :
    E5VectorizerState :=
  ⟨model_name, dimension, resolve_timeout load_timeout_seconds⟩

/-- `E5Vectorizer._run_snapshot_download` guards the download with
`asyncio.wait_for` exactly when `self._load_timeout_seconds > 0`; the model
construction step uses the same `timeout and timeout > 0` test. -/
def snapshot_download_guarded (v : E5VectorizerState) : Bool :=
  decide (0 < v.load_timeout_seconds)

/-- An argument of a raised Python exception. -/
inductive PyArg where
  | intVal (n : ℤ)
  | strVal (s : String)
  deriving DecidableEq, Repr

/-- Outcome of `E5Vectorizer._validate_model_dimension`: either the load
continues with the (possibly adopted) dimension, or a mismatch error is
raised whose argument tuple carries the message template and the values
interpolated into it. -/
inductive DimCheck where
  | ok (dimension : ℤ)
  | mismatch (args : List PyArg)
  deriving DecidableEq, Repr

/-- `E5Vectorizer._validate_model_dimension` combined with
`_determine_model_dimension`: `model_dim = none` models a loaded model whose
sentence-embedding dimension cannot be determined (validation is skipped);
a non-positive configured dimension adopts the model dimension; a positive
configured dimension that differs from the reported one raises, with the
configured value, the model name and the reported value in the exception
arguments. -/
def validate_model_dimension (configured : ℤ) (model_name : String) (model_dim : Option ℤ) :
    DimCheck :=
  match model_dim with
  | none => .ok configured
  | some md =>
    if configured ≤ 0 then .ok md
    else if md ≠ configured then
      .mismatch
        [.strVal ("Embedding dimension mismatch: configured %s but model %s reports %s. " ++
          "Adjust EMBEDDING_DIM and rerun migrations so the pgvector column matches the model."),
          .intVal configured, .strVal model_name, .intVal md]
    else .ok configured

/-! ## Single-flight model loading (`_ensure_model_loaded` in
src/services/vectorizer.py and src/services/reranker.py)

Both methods share the same double-checked locking discipline around an
`asyncio.Lock`:

```
if self._model: return self._model
async with self._load_lock:
    if self._model: return self._model
    model = ...load...          # awaits; lock held throughout
    self._model = model
    return model
```

Under asyncio, code between awaits runs atomically; the program points at
which a task can be observed are therefore the fast-path check, the lock
acquisition, the re-check under the lock, and the completion of the load.
The interleaving of any number of caller tasks is the transition system
below. Loaded model instances are numbered by the order in which loads
complete, so two distinct loads would yield two distinct instance ids. -/

/-- Program counter of one caller inside `_ensure_model_loaded`. -/
inductive LoadPc where
  | start
  | wantLock
  | recheck
  | loading
  | done (inst : ℕ)
  deriving DecidableEq, Repr

/-- Shared state: the cached `_model` (an instance id once loaded), the
holder of `_load_lock`, each task's program counter, and how many loads have
completed. -/
structure LoadState where
  model : Option ℕ
  lockHolder : Option ℕ
  tasks : List LoadPc
  loads : ℕ
  deriving DecidableEq, Repr

/-- One atomic step of one task. -/
inductive LoadStep : LoadState → LoadState → Prop
  | checkLoaded (s : LoadState) (i : ℕ) (m : ℕ) :
      s.tasks.get? i = some .start → s.model = some m →
      LoadStep s { s with tasks := s.tasks.set i (.done m) }
  | checkUnloaded (s : LoadState) (i : ℕ) :
      s.tasks.get? i = some .start → s.model = none →
      LoadStep s { s with tasks := s.tasks.set i .wantLock }
  | acquire (s : LoadState) (i : ℕ) :
      s.tasks.get? i = some .wantLock → s.lockHolder = none →
      LoadStep s { s with tasks := s.tasks.set i .recheck, lockHolder := some i }
  | recheckLoaded (s : LoadState) (i : ℕ) (m : ℕ) :
      s.tasks.get? i = some .recheck → s.lockHolder = some i → s.model = some m →
      LoadStep s { s with tasks := s.tasks.set i (.done m), lockHolder := none }
  | recheckUnloaded (s : LoadState) (i : ℕ) :
      s.tasks.get? i = some .recheck → s.lockHolder = some i → s.model = none →
      LoadStep s { s with tasks := s.tasks.set i .loading }
  | finishLoad (s : LoadState) (i : ℕ) :
      s.tasks.get? i = some .loading → s.lockHolder = some i →
      LoadStep s
        { s with
          tasks := s.tasks.set i (.done s.loads)
          model := some s.loads
          lockHolder := none
          loads := s.loads + 1 }

/-- All `n` callers at the fast-path check, nothing loaded. -/
def initLoadState (n : ℕ) : LoadState :=
  ⟨none, none, List.replicate n .start, 0⟩

/-- States reachable by interleaving `n` concurrent callers. -/
inductive LoadReachable (n : ℕ) : LoadState → Prop
  | init : LoadReachable n (initLoadState n)
  | step (s s' : LoadState) : LoadReachable n s → LoadStep s s' → LoadReachable n s'

/-- Inductive invariant of the single-flight discipline. -/
def LoadInv (s : LoadState) : Prop :=
  s.loads ≤ 1
  ∧ (s.model = none ↔ s.loads = 0)
  ∧ (∀ m, s.model = some m → m = 0)
  ∧ (∀ i, s.tasks.get? i = some .recheck ∨ s.tasks.get? i = some .loading →
      s.lockHolder = some i)
  ∧ (∀ i, s.tasks.get? i = some .loading → s.model = none)
  ∧ (∀ i m, s.tasks.get? i = some (.done m) → s.model = some m)

/-! ## Deterministic offline fallback (claim C2)

`src/core/dependencies/vector_search.py` imports `create_vectorizer` from
`src/services/vectorizer.py` and passes it the backend tag, the offline
flag and a local model path, but neither `create_vectorizer` nor the
fallback implementation it selects is present in the sources; only this
caller is. The definitions below are therefore modelled from the spec. -/

/-- Modelled from the spec: the backend-selection factory
`create_vectorizer` dispatches on the configured backend tag and selects
either the real model vectorizer or the deterministic hash fallback; the
fallback needs no model name or network access. -/
inductive VectorizerChoice where
  | e5 (model_name : String) (dimension : ℕ)
  | hashFallback (dimension : ℕ)
  deriving DecidableEq, Repr

/-- Modelled from the spec: `create_vectorizer` — runtime dispatch on a
string backend tag, choosing the hash fallback for the offline backend and
the E5 model otherwise. -/
def create_vectorizer (backend : String) (model_name : String) (dimension : ℕ) :
    VectorizerChoice :=
  if py_lower backend = "hash" then .hashFallback dimension
  else .e5 model_name dimension

/-- Modelled from the spec: a deterministic hash of the input text keying
the seeded pseudo-random transform (64-bit multiply-and-add folding). -/
def text_hash (text : String) : ℕ :=
  text.foldl (fun h c => (h * 31 + c.toNat) % 2 ^ 64) 5381

/-- Modelled from the spec: one step of the seeded 64-bit linear
congruential generator driving the pseudo-random transform. -/
def lcg_next (x : ℕ) : ℕ :=
  (6364136223846793005 * x + 1442695040888963407) % 2 ^ 64

/-- Modelled from the spec: draw `k` pseudo-random raw components from the
generator state. Components lie in `[1, 1000]`, so the raw vector of a
positive dimension is never the zero vector and can be normalized. -/
def fallback_raw_from (k : ℕ) (seed : ℕ) : List ℕ :=
  match k with
  | 0 => []
  | k + 1 =>
    let next := lcg_next seed
    (next % 1000 + 1) :: fallback_raw_from k next

/-- Modelled from the spec: the raw (pre-normalization) fallback vector of
the requested dimension, keyed by the hash of the text. -/
def fallback_raw (dimension : ℕ) (text : String) : List ℕ :=
  fallback_raw_from dimension (text_hash text)

/-- Modelled from the spec: the Euclidean norm of the raw fallback vector. -/
noncomputable def fallback_norm (dimension : ℕ) (text : String) : ℝ :=
  Real.sqrt (((fallback_raw dimension text).map (fun m : ℕ => (m : ℝ) * (m : ℝ))).sum)

/-- Modelled from the spec: the fallback embedding — the raw pseudo-random
vector scaled to unit Euclidean length, as the encoder always returns
unit-normalized vectors. -/
noncomputable def fallback_embed (dimension : ℕ) (text : String) : List ℝ :=
  (fallback_raw dimension text).map (fun n : ℕ => (n : ℝ) / fallback_norm dimension text)

/-! ## Sample data used by concrete witnesses -/

/-- Catalog item A of the spec scenarios. -/
def itemA : Allowance :=
  ⟨1, "child support", "law 81", some "federal", some ["families"], some "2025"⟩

/-- Catalog item B of the spec scenarios. -/
def itemB : Allowance :=
  ⟨2, "housing subsidy", "law 12", some "regional", some ["veterans"], some "2026"⟩

/-- Catalog item C of the spec scenarios. -/
def itemC : Allowance :=
  ⟨3, "tax relief", "law 7", some "federal", some ["students"], none⟩

/-- 0.91 as a reduced rational (written as an explicit numerator/denominator
pair so the kernel can evaluate comparisons on it). -/
def q091 : ℚ := ⟨91, 100, by norm_num, by norm_num⟩

/-- 0.40 as a reduced rational. -/
def q040 : ℚ := ⟨2, 5, by norm_num, by norm_num⟩

/-- 0.12 as a reduced rational. -/
def q012 : ℚ := ⟨3, 25, by norm_num, by norm_num⟩

/-- 0.3 as a reduced rational. -/
def q030 : ℚ := ⟨3, 10, by norm_num, by norm_num⟩

/-- 0.10 as a reduced rational. -/
def q010 : ℚ := ⟨1, 10, by norm_num, by norm_num⟩

/-- 0.95 as a reduced rational. -/
def q095 : ℚ := ⟨19, 20, by norm_num, by norm_num⟩

/-- 0.20 as a reduced rational. -/
def q020 : ℚ := ⟨1, 5, by norm_num, by norm_num⟩

/-- 0.55 as a reduced rational. -/
def q055 : ℚ := ⟨11, 20, by norm_num, by norm_num⟩

/-- 0.60 as a reduced rational. -/
def q060 : ℚ := ⟨3, 5, by norm_num, by norm_num⟩

/-! ## Theorems -/

/-- Claim C10: the `E5Vectorizer` constructor silently replaces every
non-positive configured `load_timeout_seconds` with the 300-second default,
so the stored timeout is positive and the snapshot download and model
construction are always guarded by `asyncio.wait_for`. -/
theorem c10_nonpositive_timeout_defaulted (mn : String) (d : ℤ) (t : ℚ) (h : t ≤ 0) :
    (mkE5Vectorizer mn d t).load_timeout_seconds = 300
    ∧ 0 < (mkE5Vectorizer mn d t).load_timeout_seconds
    ∧ snapshot_download_guarded (mkE5Vectorizer mn d t) = true := by
  have hval : (mkE5Vectorizer mn d t).load_timeout_seconds = 300 := by
    simp only [mkE5Vectorizer, resolve_timeout, DEFAULT_LOAD_TIMEOUT_SECONDS]
    rw [if_neg (not_lt.mpr h)]
  have hpos : 0 < (mkE5Vectorizer mn d t).load_timeout_seconds := by
    rw [hval]; norm_num
  exact ⟨hval, hpos, decide_eq_true hpos⟩

/-- Witness for C10 at the concrete configured timeout `-5`. -/
theorem c10_witness :
    (mkE5Vectorizer "intfloat/multilingual-e5-base" 768 (-5)).load_timeout_seconds = 300
    ∧ 0 < (mkE5Vectorizer "intfloat/multilingual-e5-base" 768 (-5)).load_timeout_seconds
    ∧ snapshot_download_guarded (mkE5Vectorizer "intfloat/multilingual-e5-base" 768 (-5)) = true :=
  c10_nonpositive_timeout_defaulted "intfloat/multilingual-e5-base" 768 (-5) (by decide)

/-- Claim C5: after the model loads and reports a dimension, a positive
configured dimension that differs makes `_validate_model_dimension` raise an
error whose arguments name both the configured and the reported value, while
an unset or non-positive configured dimension adopts the reported value and
the load continues. -/
theorem c5_dimension_reconciliation (configured md : ℤ) (mn : String) :
    (0 < configured → md ≠ configured →
      ∃ args, validate_model_dimension configured mn (some md) = .mismatch args
        ∧ PyArg.intVal configured ∈ args ∧ PyArg.intVal md ∈ args)
    ∧ (configured ≤ 0 → validate_model_dimension configured mn (some md) = .ok md) := by
  constructor
  · intro h1 h2
    have heq : validate_model_dimension configured mn (some md) =
        .mismatch
          [.strVal ("Embedding dimension mismatch: configured %s but model %s reports %s. " ++
            "Adjust EMBEDDING_DIM and rerun migrations so the pgvector column matches the model."),
            .intVal configured, .strVal mn, .intVal md] := by
      simp only [validate_model_dimension]
      rw [if_neg (not_le.mpr h1), if_pos h2]
    exact ⟨_, heq, by simp, by simp⟩
  · intro h
    simp only [validate_model_dimension]
    rw [if_pos h]

/-- Witness for C5: configured 768 against a model reporting 384 fails
naming both values; configured 0 adopts 384. -/
theorem c5_witness :
    (∃ args, validate_model_dimension 768 "intfloat/multilingual-e5-base" (some 384) =
        .mismatch args ∧ PyArg.intVal 768 ∈ args ∧ PyArg.intVal 384 ∈ args)
    ∧ validate_model_dimension 0 "intfloat/multilingual-e5-base" (some 384) = .ok 384 :=
  ⟨(c5_dimension_reconciliation 768 384 "intfloat/multilingual-e5-base").1
      (by decide) (by decide),
    (c5_dimension_reconciliation 0 384 "intfloat/multilingual-e5-base").2 (by decide)⟩

/-- Claim C6: the score filter keeps exactly the candidates whose score is at
or above the threshold, preserving their order, and a non-positive threshold
keeps every candidate. -/
theorem c6_score_filter (thr : ℚ) (ms : List EmbeddingSearchResult) :
    (thr ≤ 0 → filter_by_score thr ms = ms)
    ∧ (0 < thr →
        (∀ m, m ∈ filter_by_score thr ms ↔ m ∈ ms ∧ thr ≤ m.score)
        ∧ (filter_by_score thr ms).Sublist ms) := by
  constructor
  · intro h
    simp only [filter_by_score]
    rw [if_pos h]
  · intro h
    have hne : ¬ thr ≤ 0 := not_le.mpr h
    constructor
    · intro m
      simp only [filter_by_score]
      rw [if_neg hne]
      simp [List.mem_filter]
    · simp only [filter_by_score]
      rw [if_neg hne]
      exact List.filter_sublist ms

/-- Witness for C6, the spec scenario: scores 0.91, 0.40, 0.12 with
threshold 0.3 keep A and B in order; with limit 2 the result is [A, B]. -/
theorem c6_witness :
    ((∀ m, m ∈ filter_by_score q030 [⟨itemA, q091⟩, ⟨itemB, q040⟩, ⟨itemC, q012⟩]
        ↔ m ∈ [⟨itemA, q091⟩, ⟨itemB, q040⟩, (⟨itemC, q012⟩ : EmbeddingSearchResult)]
          ∧ q030 ≤ m.score)
      ∧ (filter_by_score q030 [⟨itemA, q091⟩, ⟨itemB, q040⟩, ⟨itemC, q012⟩]).Sublist
          [⟨itemA, q091⟩, ⟨itemB, q040⟩, ⟨itemC, q012⟩])
    ∧ truncate_sorted
        (filter_by_score q030 [⟨itemA, q091⟩, ⟨itemB, q040⟩, ⟨itemC, q012⟩]) 2
        = [⟨itemA, q091⟩, ⟨itemB, q040⟩] :=
  ⟨(c6_score_filter q030 _).2 (by decide), by decide⟩

/-- Claim C4: every score returned by `search_by_vector` is the
metric-specific transform of the raw database value — `1 - distance` for
cosine, the raw similarity for dot/inner-product, `1 / (1 + distance)` for
L2 — clamped to `[-1, 1]`; hence every returned score lies in `[-1, 1]`,
and L2 scores lie in `(0, 1]` (L2 distances are non-negative). -/
theorem c4_metric_score_normalization (metric : String) (rows : List (Allowance × ℚ)) :
    ((py_lower metric = "cosine" ∨ py_lower metric = "cos") →
      search_by_vector metric rows =
        .ok (rows.map (fun r => ⟨r.1, clamp_similarity (1 - r.2)⟩)))
    ∧ ((py_lower metric = "dot" ∨ py_lower metric = "inner_product") →
      search_by_vector metric rows =
        .ok (rows.map (fun r => ⟨r.1, clamp_similarity r.2⟩)))
    ∧ ((py_lower metric = "l2" ∨ py_lower metric = "euclidean") →
      search_by_vector metric rows =
        .ok (rows.map (fun r => ⟨r.1, clamp_similarity (1 / (1 + r.2))⟩)))
    ∧ (∀ res, search_by_vector metric rows = .ok res →
        ∀ x ∈ res, -1 ≤ x.score ∧ x.score ≤ 1)
    ∧ ((py_lower metric = "l2" ∨ py_lower metric = "euclidean") →
        (∀ r ∈ rows, 0 ≤ r.2) →
        ∀ res, search_by_vector metric rows = .ok res →
          ∀ x ∈ res, 0 < x.score ∧ x.score ≤ 1) := by
  have hclamp_lb : ∀ v : ℚ, -1 ≤ clamp_similarity v := fun v => le_max_left _ _
  have hclamp_ub : ∀ v : ℚ, clamp_similarity v ≤ 1 :=
    fun v => max_le (by norm_num) (min_le_left _ _)
  have hcos : (py_lower metric = "cosine" ∨ py_lower metric = "cos") →
      search_by_vector metric rows =
        .ok (rows.map (fun r => ⟨r.1, clamp_similarity (1 - r.2)⟩)) := by
    intro h
    simp only [search_by_vector]
    rw [if_pos h]
    simp [to_results_from_distance]
  have hdot : (py_lower metric = "dot" ∨ py_lower metric = "inner_product") →
      search_by_vector metric rows =
        .ok (rows.map (fun r => ⟨r.1, clamp_similarity r.2⟩)) := by
    intro h
    have h1 : ¬ (py_lower metric = "cosine" ∨ py_lower metric = "cos") := by
      rcases h with h | h <;> simp [h]
    simp only [search_by_vector]
    rw [if_neg h1, if_pos h]
    simp [to_results_from_similarity]
  have hl2 : (py_lower metric = "l2" ∨ py_lower metric = "euclidean") →
      search_by_vector metric rows =
        .ok (rows.map (fun r => ⟨r.1, clamp_similarity (1 / (1 + r.2))⟩)) := by
    intro h
    have h1 : ¬ (py_lower metric = "cosine" ∨ py_lower metric = "cos") := by
      rcases h with h | h <;> simp [h]
    have h2 : ¬ (py_lower metric = "dot" ∨ py_lower metric = "inner_product") := by
      rcases h with h | h <;> simp [h]
    simp only [search_by_vector]
    rw [if_neg h1, if_neg h2, if_pos h]
    simp [to_results_from_distance]
  have hbounds : ∀ res, search_by_vector metric rows = .ok res →
      ∀ x ∈ res, -1 ≤ x.score ∧ x.score ≤ 1 := by
    intro res hres x hx
    have hxres : ∀ b : Bool, x ∈ to_results_from_distance rows b →
        -1 ≤ x.score ∧ x.score ≤ 1 := by
      intro b hmem
      simp only [to_results_from_distance, List.mem_map] at hmem
      obtain ⟨r, _, rfl⟩ := hmem
      exact ⟨hclamp_lb _, hclamp_ub _⟩
    have hxsim : x ∈ to_results_from_similarity rows → -1 ≤ x.score ∧ x.score ≤ 1 := by
      intro hmem
      simp only [to_results_from_similarity, List.mem_map] at hmem
      obtain ⟨r, _, rfl⟩ := hmem
      exact ⟨hclamp_lb _, hclamp_ub _⟩
    by_cases h1 : py_lower metric = "cosine" ∨ py_lower metric = "cos"
    · rw [hcos h1] at hres
      simp only [Except.ok.injEq] at hres
      subst hres
      simp only [List.mem_map] at hx
      obtain ⟨r, _, rfl⟩ := hx
      exact ⟨hclamp_lb _, hclamp_ub _⟩
    · by_cases h2 : py_lower metric = "dot" ∨ py_lower metric = "inner_product"
      · rw [hdot h2] at hres
        simp only [Except.ok.injEq] at hres
        subst hres
        simp only [List.mem_map] at hx
        obtain ⟨r, _, rfl⟩ := hx
        exact ⟨hclamp_lb _, hclamp_ub _⟩
      · by_cases h3 : py_lower metric = "l2" ∨ py_lower metric = "euclidean"
        · rw [hl2 h3] at hres
          simp only [Except.ok.injEq] at hres
          subst hres
          simp only [List.mem_map] at hx
          obtain ⟨r, _, rfl⟩ := hx
          exact ⟨hclamp_lb _, hclamp_ub _⟩
        · simp only [search_by_vector] at hres
          rw [if_neg h1, if_neg h2, if_neg h3] at hres
          exact absurd hres (by simp)
  refine ⟨hcos, hdot, hl2, hbounds, ?_⟩
  intro hmet hnn res hres x hx
  have heq := hl2 hmet
  rw [hres] at heq
  simp only [Except.ok.injEq] at heq
  subst heq
  simp only [List.mem_map] at hx
  obtain ⟨r, hr, rfl⟩ := hx
  have hd : (0 : ℚ) ≤ r.2 := hnn r hr
  have h1d : (0 : ℚ) < 1 + r.2 := by linarith
  have hpos : (0 : ℚ) < 1 / (1 + r.2) := by positivity
  have hle : 1 / (1 + r.2) ≤ 1 := by
    rw [div_le_one h1d]
    linarith
  have hcl : clamp_similarity (1 / (1 + r.2)) = 1 / (1 + r.2) := by
    simp only [clamp_similarity]
    rw [min_eq_right hle, max_eq_right (by linarith : (-1 : ℚ) ≤ 1 / (1 + r.2))]
  have hscore : (⟨r.1, clamp_similarity (1 / (1 + r.2))⟩ : EmbeddingSearchResult).score
      = clamp_similarity (1 / (1 + r.2)) := rfl
  constructor
  · rw [hscore, hcl]
    exact hpos
  · rw [hscore, hcl]
    exact hle

/-- Witness for C4 on a one-row table with raw value 0, exercising the
cosine, dot (upper-cased, checking the lower-casing) and L2 branches. -/
theorem c4_witness :
    search_by_vector "cosine" [(itemA, (0 : ℚ))] =
      .ok ([(itemA, (0 : ℚ))].map (fun r => ⟨r.1, clamp_similarity (1 - r.2)⟩))
    ∧ search_by_vector "DOT" [(itemA, (0 : ℚ))] =
      .ok ([(itemA, (0 : ℚ))].map (fun r => ⟨r.1, clamp_similarity r.2⟩))
    ∧ search_by_vector "l2" [(itemA, (0 : ℚ))] =
      .ok ([(itemA, (0 : ℚ))].map (fun r => ⟨r.1, clamp_similarity (1 / (1 + r.2))⟩))
    ∧ (∀ x ∈ [(itemA, (0 : ℚ))].map
          (fun r : Allowance × ℚ => (⟨r.1, clamp_similarity r.2⟩ : EmbeddingSearchResult)),
        -1 ≤ x.score ∧ x.score ≤ 1)
    ∧ (∀ x ∈ [(itemA, (0 : ℚ))].map
          (fun r : Allowance × ℚ =>
            (⟨r.1, clamp_similarity (1 / (1 + r.2))⟩ : EmbeddingSearchResult)),
        0 < x.score ∧ x.score ≤ 1) :=
  ⟨(c4_metric_score_normalization "cosine" [(itemA, 0)]).1 (Or.inl (by decide)),
    (c4_metric_score_normalization "DOT" [(itemA, 0)]).2.1 (Or.inl (by decide)),
    (c4_metric_score_normalization "l2" [(itemA, 0)]).2.2.1 (Or.inl (by decide)),
    (c4_metric_score_normalization "DOT" [(itemA, 0)]).2.2.2.1 _
      ((c4_metric_score_normalization "DOT" [(itemA, 0)]).2.1 (Or.inl (by decide))),
    (c4_metric_score_normalization "l2" [(itemA, 0)]).2.2.2.2 (Or.inl (by decide))
      (by simp) _
      ((c4_metric_score_normalization "l2" [(itemA, 0)]).2.2.1 (Or.inl (by decide)))⟩

/-- A catalog item all of whose document fields are empty, so its rebuilt
document is the empty string. -/
def itemEmpty : Allowance := ⟨4, "", "", none, none, none⟩

/-- The orchestrator configuration used by the C3 scenarios. -/
def c3svc : VectorSearchService := mkVectorSearchService ⟨5, 0, 20, 5, true⟩ true

/-- Claim C3 counterexample: with reranking enabled and pool
[itemEmpty (0.91), itemB (0.60)], where itemEmpty's rebuilt document is
empty, the reranker is given only itemB's document; the positional zip then
assigns the score computed for itemB's document (0.95) to itemEmpty, and
itemB is dropped from the result — so not every taken candidate's score is
replaced by the score of its own document. -/
theorem c3_counterexample :
    document_of ⟨itemEmpty, q091⟩ = ""
    ∧ document_of ⟨itemB, q060⟩ ≠ ""
    ∧ rerank c3svc (fun _ ds => ds.map (fun _ => q095)) "query text"
        [⟨itemEmpty, q091⟩, ⟨itemB, q060⟩] 5
        = [⟨itemEmpty, q095⟩]
    ∧ ∀ r ∈ rerank c3svc (fun _ ds => ds.map (fun _ => q095)) "query text"
        [⟨itemEmpty, q091⟩, ⟨itemB, q060⟩] 5, r.allowance ≠ itemB := by
  decide

/-- Claim C3 (amended): whenever reranking is enabled, the normalized query
is non-empty, the taken pool is non-empty and every taken candidate's
rebuilt document is non-empty, and the reranker returns one score per
document, `_rerank` takes the first
`max(rerank_pool_size, min(requested_limit, rerank_top_k))` candidates,
scores each of them against the normalized query on its own rebuilt
document, replaces its score with that reranker score, and truncates the
descending-sorted result to `min(requested_limit, rerank_top_k)`. (When
some rebuilt document is empty the scores are assigned positionally to the
wrong candidates, as the counterexample shows.) -/
theorem c3_rerank_amended (svc : VectorSearchService)
    (reranker_score : String → List String → List ℚ)
    (user_query : String) (candidates : List EmbeddingSearchResult) (limit : ℕ)
    (h_en : svc.rerank_enabled = true)
    (h_q : normalize (some user_query) ≠ "")
    (h_pool : candidates.take (max svc.rerank_candidates (min limit svc.rerank_top_k)) ≠ [])
    (h_docs : ∀ m ∈ candidates.take (max svc.rerank_candidates (min limit svc.rerank_top_k)),
      document_of m ≠ "")
    (h_len : (reranker_score (normalize (some user_query))
        ((candidates.take (max svc.rerank_candidates (min limit svc.rerank_top_k))).map
          document_of)).length
      = (candidates.take (max svc.rerank_candidates (min limit svc.rerank_top_k))).length) :
    rerank svc reranker_score user_query candidates limit
      = truncate_sorted
          (((candidates.take (max svc.rerank_candidates (min limit svc.rerank_top_k))).zip
              (reranker_score (normalize (some user_query))
                ((candidates.take (max svc.rerank_candidates (min limit svc.rerank_top_k))).map
                  document_of))).map
            (fun p => ⟨p.1.allowance, p.2⟩))
          (min limit svc.rerank_top_k) := by
  have hc_ne : candidates ≠ [] := by
    intro hc
    exact h_pool (by simp [hc])
  have h1 : ¬ (svc.rerank_enabled = false ∨ candidates = []) := by
    rintro (h | h)
    · rw [h_en] at h
      exact absurd h (by simp)
    · exact hc_ne h
  have hdocs_eq :
      build_documents (candidates.take (max svc.rerank_candidates (min limit svc.rerank_top_k)))
        = (candidates.take (max svc.rerank_candidates (min limit svc.rerank_top_k))).map
            document_of := by
    simp only [build_documents]
    apply List.filter_eq_self.mpr
    intro a ha
    simp only [List.mem_map] at ha
    obtain ⟨m, hm, rfl⟩ := ha
    simpa using h_docs m hm
  have hmap_ne :
      (candidates.take (max svc.rerank_candidates (min limit svc.rerank_top_k))).map document_of
        ≠ [] := by
    simpa [List.map_eq_nil_iff] using h_pool
  have hscored_ne :
      (((candidates.take (max svc.rerank_candidates (min limit svc.rerank_top_k))).zip
          (reranker_score (normalize (some user_query))
            ((candidates.take (max svc.rerank_candidates (min limit svc.rerank_top_k))).map
              document_of))).map
        (fun p => (⟨p.1.allowance, p.2⟩ : EmbeddingSearchResult))) ≠ [] := by
    intro h
    have hlen := congrArg List.length h
    simp only [List.length_map, List.length_zip, h_len, Nat.min_self, List.length_nil] at hlen
    exact h_pool (List.length_eq_zero.mp hlen)
  simp only [rerank]
  rw [if_neg h1, if_neg h_q, hdocs_eq, if_neg hmap_ne, if_neg hscored_ne]

/-- The orchestrator configuration used by the C3 spec-scenario witness. -/
def c3svcW : VectorSearchService := mkVectorSearchService ⟨3, 0, 3, 5, true⟩ true

/-- The candidate pool of the C3 spec scenario: A, B, C with baseline
scores 0.91, 0.60, 0.55. -/
def c3cands : List EmbeddingSearchResult := [⟨itemA, q091⟩, ⟨itemB, q060⟩, ⟨itemC, q055⟩]

/-- The cross-encoder of the C3 spec scenario: it scores A's document 0.10,
B's 0.95 and anything else 0.20. -/
def c3oracle : String → List String → List ℚ :=
  fun _ ds => ds.map (fun d =>
    if d = document_of ⟨itemA, q091⟩ then q010
    else if d = document_of ⟨itemB, q060⟩ then q095
    else q020)

/-- Witness for C3, the spec scenario: pool [A, B, C] with baseline scores
[0.91, 0.60, 0.55], reranker scores [0.10, 0.95, 0.20] per candidate
document, requested limit 3 and rerank_top_k 5 yield [B, C, A]. -/
theorem c3_witness :
    rerank c3svcW c3oracle "family with children" c3cands 3
      = truncate_sorted
          (((c3cands.take (max c3svcW.rerank_candidates (min 3 c3svcW.rerank_top_k))).zip
            (c3oracle (normalize (some "family with children"))
              ((c3cands.take
                  (max c3svcW.rerank_candidates (min 3 c3svcW.rerank_top_k))).map
                document_of))).map
            (fun p => ⟨p.1.allowance, p.2⟩))
          (min 3 c3svcW.rerank_top_k)
    ∧ rerank c3svcW c3oracle "family with children" c3cands 3
      = [⟨itemB, q095⟩, ⟨itemC, q020⟩, ⟨itemA, q010⟩] :=
  ⟨c3_rerank_amended _ _ _ _ _ (by decide) (by decide) (by decide) (by decide) (by decide),
    by decide⟩

/-- Claim C7: a query that normalizes to the empty string makes `search`
return the empty result list without raising, and neither the vectorizer nor
the repository vector search is invoked (the trace stays at zero). -/
theorem c7_empty_query (svc : VectorSearchService) (metric : String)
    (embed_oracle : String → List ℚ)
    (repo_oracle : List ℚ → ℕ → String → List EmbeddingSearchResult)
    (reranker_score : String → List String → List ℚ)
    (query_text : String) (limit : Option ℕ)
    (h : normalize (some query_text) = "") :
    search svc metric embed_oracle repo_oracle reranker_score query_text limit
      = ([], ⟨0, 0⟩) := by
  simp [search, build_query, h]

/-- Witness for C7 on the whitespace-only query. -/
theorem c7_witness :
    search (mkVectorSearchService ⟨5, q030, 20, 5, true⟩ true) "cosine"
      (fun _ => [1]) (fun _ _ _ => [⟨itemA, q091⟩]) (fun _ ds => ds.map (fun _ => 1))
      "  \t " none = ([], ⟨0, 0⟩) :=
  c7_empty_query _ _ _ _ _ "  \t " none (by decide)

/-- Claim C1 (code bug): `index_missing` has no `return value` statement, so
it always evaluates to `None` rather than the count of newly created
embeddings; consequently `vectorize_missing_allowances` — annotated
`-> int` and documented to surface a not-found error when nothing is
missing — returns `None` on every run and its `created == 0` check can
never fire (Python `None == 0` is `False`). The concrete run shows: the
first call indexes one allowance yet reports `None` instead of 1, and the
second call on the unchanged catalog reports `None` instead of 0 or a
NotFoundError (while correctly not re-indexing anything). -/
theorem c1_code_bug :
    (∀ (embed : String → List ℚ) (mn : String) (allowances : List Allowance)
        (table : List AllowanceEmbeddingRow),
      (index_missing embed mn allowances table).2 = none
      ∧ (vectorize_missing_allowances embed mn allowances table).2 = .ok none)
    ∧ (vectorize_missing_allowances (fun _ => [1]) "model-x" [itemA] []).2 = .ok none
    ∧ ((vectorize_missing_allowances (fun _ => [1]) "model-x" [itemA] []).1.filter
        (fun r => r.allowance_id = itemA.id)).length = 1
    ∧ (vectorize_missing_allowances (fun _ => [1]) "model-x" [itemA]
        (vectorize_missing_allowances (fun _ => [1]) "model-x" [itemA] []).1).2 = .ok none
    ∧ (vectorize_missing_allowances (fun _ => [1]) "model-x" [itemA]
        (vectorize_missing_allowances (fun _ => [1]) "model-x" [itemA] []).1).1
      = (vectorize_missing_allowances (fun _ => [1]) "model-x" [itemA] []).1 := by
  have hnone : ∀ (embed : String → List ℚ) (mn : String) (allowances : List Allowance)
      (table : List AllowanceEmbeddingRow),
      (index_missing embed mn allowances table).2 = none := by
    intro embed mn allowances table
    simp only [index_missing]
    split <;> rfl
  refine ⟨fun embed mn allowances table => ⟨hnone embed mn allowances table, ?_⟩,
    ?_, by decide, ?_, by decide⟩
  · simp only [vectorize_missing_allowances]
    rw [hnone]
    simp [py_eq_zero, hnone]
  · simp only [vectorize_missing_allowances]
    rw [hnone]
    simp [py_eq_zero, hnone]
  · simp only [vectorize_missing_allowances]
    rw [hnone]
    simp [py_eq_zero, hnone]

/-! ## Lemmas on the upsert (claim C8) -/

/-- The row returned by `upsert_embedding` always carries the new vector and
model tag. -/
theorem upsert_ret_fields (t : List AllowanceEmbeddingRow) (aid : ℤ) (e : List ℚ)
    (m : String) (now next_id : ℕ) :
    (upsert_embedding t aid e m now next_id).2.embedding = e
    ∧ (upsert_embedding t aid e m now next_id).2.embedding_model = m
    ∧ (upsert_embedding t aid e m now next_id).2.allowance_id = aid := by
  induction t with
  | nil => exact ⟨rfl, rfl, rfl⟩
  | cons row rest ih =>
    simp only [upsert_embedding]
    split_ifs with hid
    · exact ⟨rfl, rfl, hid⟩
    · exact ih

/-- The row returned by `upsert_embedding` is stored in the table. -/
theorem upsert_mem_ret (t : List AllowanceEmbeddingRow) (aid : ℤ) (e : List ℚ)
    (m : String) (now next_id : ℕ) :
    (upsert_embedding t aid e m now next_id).2 ∈ (upsert_embedding t aid e m now next_id).1 := by
  induction t with
  | nil => simp [upsert_embedding]
  | cons row rest ih =>
    simp only [upsert_embedding]
    split_ifs with hid
    · exact List.mem_cons_self _ _
    · exact List.mem_cons_of_mem _ ih

/-- Every row of the upserted table either matches the upserted id or was
already present. -/
theorem upsert_mem_src (t : List AllowanceEmbeddingRow) (aid : ℤ) (e : List ℚ)
    (m : String) (now next_id : ℕ) :
    ∀ x ∈ (upsert_embedding t aid e m now next_id).1, x.allowance_id = aid ∨ x ∈ t := by
  induction t with
  | nil =>
    intro x hx
    simp only [upsert_embedding, List.mem_singleton] at hx
    subst hx
    exact Or.inl rfl
  | cons row rest ih =>
    intro x hx
    simp only [upsert_embedding] at hx
    split_ifs at hx with hid
    · rcases List.mem_cons.mp hx with hx | hx
      · subst hx
        exact Or.inl hid
      · exact Or.inr (List.mem_cons_of_mem _ hx)
    · rcases List.mem_cons.mp hx with hx | hx
      · subst hx
        exact Or.inr (List.mem_cons_self _ _)
      · rcases ih x hx with h | h
        · exact Or.inl h
        · exact Or.inr (List.mem_cons_of_mem _ h)

/-- The upsert preserves the uniqueness invariant on `allowance_id`. -/
theorem upsert_unique (t : List AllowanceEmbeddingRow) (aid : ℤ) (e : List ℚ)
    (m : String) (now next_id : ℕ) (h : RowsUnique t) :
    RowsUnique (upsert_embedding t aid e m now next_id).1 := by
  induction t with
  | nil => simp [upsert_embedding, RowsUnique]
  | cons row rest ih =>
    obtain ⟨hhead, hrest⟩ := List.pairwise_cons.mp h
    simp only [upsert_embedding]
    split_ifs with hid
    · exact List.pairwise_cons.mpr ⟨fun x hx => hhead x hx, hrest⟩
    · refine List.pairwise_cons.mpr ⟨?_, ih hrest⟩
      intro x hx
      rcases upsert_mem_src rest aid e m now next_id x hx with hxa | hxm
      · rw [hxa]
        exact hid
      · exact hhead x hxm

/-- On a table satisfying the uniqueness invariant, the upserted table holds
exactly one row for the upserted id, namely the returned one. -/
theorem upsert_filter (t : List AllowanceEmbeddingRow) (aid : ℤ) (e : List ℚ)
    (m : String) (now next_id : ℕ) (h : RowsUnique t) :
    (upsert_embedding t aid e m now next_id).1.filter (fun r => r.allowance_id = aid)
      = [(upsert_embedding t aid e m now next_id).2] := by
  induction t with
  | nil => simp [upsert_embedding]
  | cons row rest ih =>
    obtain ⟨hhead, hrest⟩ := List.pairwise_cons.mp h
    simp only [upsert_embedding]
    split_ifs with hid
    · have hrest_none : List.filter (fun r => decide (r.allowance_id = aid)) rest = [] := by
        apply List.filter_eq_nil_iff.mpr
        intro x hx
        simp only [decide_eq_true_eq]
        intro hc
        exact hhead x hx (hid.trans hc.symm)
      simp [List.filter_cons, hid, hrest_none]
    · simp [List.filter_cons, hid, ih hrest]

/-- Upserting an id whose unique stored row is `r` returns `r` with the
vector and model overwritten — in particular `created_at` and `id` are
kept. -/
theorem upsert_of_filter (t : List AllowanceEmbeddingRow) (aid : ℤ) (e : List ℚ)
    (m : String) (now next_id : ℕ) (r : AllowanceEmbeddingRow)
    (h : t.filter (fun x => x.allowance_id = aid) = [r]) :
    (upsert_embedding t aid e m now next_id).2
      = { r with embedding := e, embedding_model := m } := by
  induction t with
  | nil => simp at h
  | cons row rest ih =>
    rw [List.filter_cons] at h
    simp only [upsert_embedding]
    split_ifs with hid
    · rw [if_pos (by simpa using hid)] at h
      injection h with h1 _
      rw [h1]
    · rw [if_neg (by simpa using hid)] at h
      exact ih h

/-- Claim C8 counterexample: two upserts for id 1 at database clock times
10 then 20 leave one record whose `created_at` is still 10 — the stored
record does not hold the latest timestamp, because the conflict branch
updates only the vector and the model tag. -/
theorem c8_counterexample :
    (upsert_embedding (upsert_embedding [] 1 [1] "model-a" 10 0).1 1 [2] "model-b" 20 1).2.created_at
      = 10
    ∧ (upsert_embedding (upsert_embedding [] 1 [1] "model-a" 10 0).1 1 [2] "model-b" 20 1).2.created_at
      ≠ 20
    ∧ (upsert_embedding (upsert_embedding [] 1 [1] "model-a" 10 0).1 1 [2] "model-b" 20 1).1
      = [⟨0, 1, [2], "model-b", 10⟩] := by
  decide

/-- Claim C8 (amended): under the `allowance_id` uniqueness invariant,
calling `upsert_embedding` twice with the same item id and different
vectors leaves exactly one embedding record for that id, holding the
latest vector and model identifier but the `created_at` timestamp of the
first stored record (the conflict branch does not refresh it); each call
returns the stored record, and the uniqueness invariant is preserved. -/
theorem c8_upsert_idempotent (table : List AllowanceEmbeddingRow) (aid : ℤ)
    (e1 : List ℚ) (m1 : String) (t1 n1 : ℕ) (e2 : List ℚ) (m2 : String) (t2 n2 : ℕ)
    (h : RowsUnique table) :
    (upsert_embedding (upsert_embedding table aid e1 m1 t1 n1).1 aid e2 m2 t2 n2).1.filter
        (fun r => r.allowance_id = aid)
      = [(upsert_embedding (upsert_embedding table aid e1 m1 t1 n1).1 aid e2 m2 t2 n2).2]
    ∧ (upsert_embedding (upsert_embedding table aid e1 m1 t1 n1).1 aid e2 m2 t2 n2).2.embedding
      = e2
    ∧ (upsert_embedding (upsert_embedding table aid e1 m1 t1 n1).1 aid e2 m2 t2
        n2).2.embedding_model = m2
    ∧ (upsert_embedding (upsert_embedding table aid e1 m1 t1 n1).1 aid e2 m2 t2 n2).2.created_at
      = (upsert_embedding table aid e1 m1 t1 n1).2.created_at
    ∧ (upsert_embedding table aid e1 m1 t1 n1).2 ∈ (upsert_embedding table aid e1 m1 t1 n1).1
    ∧ (upsert_embedding (upsert_embedding table aid e1 m1 t1 n1).1 aid e2 m2 t2 n2).2
      ∈ (upsert_embedding (upsert_embedding table aid e1 m1 t1 n1).1 aid e2 m2 t2 n2).1
    ∧ RowsUnique (upsert_embedding (upsert_embedding table aid e1 m1 t1 n1).1 aid e2 m2 t2 n2).1
    := by
  have h1u : RowsUnique (upsert_embedding table aid e1 m1 t1 n1).1 :=
    upsert_unique table aid e1 m1 t1 n1 h
  have hfil : (upsert_embedding table aid e1 m1 t1 n1).1.filter
      (fun r => r.allowance_id = aid) = [(upsert_embedding table aid e1 m1 t1 n1).2] :=
    upsert_filter table aid e1 m1 t1 n1 h
  have hsecond := upsert_of_filter (upsert_embedding table aid e1 m1 t1 n1).1 aid e2 m2 t2 n2
    (upsert_embedding table aid e1 m1 t1 n1).2 hfil
  refine ⟨upsert_filter _ aid e2 m2 t2 n2 h1u,
    (upsert_ret_fields _ aid e2 m2 t2 n2).1,
    (upsert_ret_fields _ aid e2 m2 t2 n2).2.1,
    ?_,
    upsert_mem_ret table aid e1 m1 t1 n1,
    upsert_mem_ret _ aid e2 m2 t2 n2,
    upsert_unique _ aid e2 m2 t2 n2 h1u⟩
  rw [hsecond]

/-- Witness for C8: two upserts for id 1 on the empty table. -/
theorem c8_witness :
    (upsert_embedding (upsert_embedding [] 1 [1] "model-a" 10 0).1 1 [2] "model-b" 20 1).1.filter
        (fun r => r.allowance_id = 1)
      = [(upsert_embedding (upsert_embedding [] 1 [1] "model-a" 10 0).1 1 [2] "model-b" 20 1).2]
    ∧ (upsert_embedding (upsert_embedding [] 1 [1] "model-a" 10 0).1 1 [2] "model-b" 20 1).2.embedding
      = [2]
    ∧ (upsert_embedding (upsert_embedding [] 1 [1] "model-a" 10 0).1 1 [2] "model-b" 20
        1).2.embedding_model = "model-b"
    ∧ (upsert_embedding (upsert_embedding [] 1 [1] "model-a" 10 0).1 1 [2] "model-b" 20 1).2.created_at
      = (upsert_embedding [] 1 [1] "model-a" 10 0).2.created_at
    ∧ (upsert_embedding [] 1 [1] "model-a" 10 0).2 ∈ (upsert_embedding [] 1 [1] "model-a" 10 0).1
    ∧ (upsert_embedding (upsert_embedding [] 1 [1] "model-a" 10 0).1 1 [2] "model-b" 20 1).2
      ∈ (upsert_embedding (upsert_embedding [] 1 [1] "model-a" 10 0).1 1 [2] "model-b" 20 1).1
    ∧ RowsUnique (upsert_embedding (upsert_embedding [] 1 [1] "model-a" 10 0).1 1 [2] "model-b" 20 1).1
    :=
  c8_upsert_idempotent [] 1 [1] "model-a" 10 0 [2] "model-b" 20 1 List.Pairwise.nil

/-! ## Lemmas on the fallback vectorizer (claim C2) -/

/-- The generator draws exactly `k` components, each at least 1. -/
theorem fallback_raw_from_spec (k seed : ℕ) :
    (fallback_raw_from k seed).length = k ∧ ∀ n ∈ fallback_raw_from k seed, 1 ≤ n := by
  induction k generalizing seed with
  | zero => simp [fallback_raw_from]
  | succ k ih =>
    refine ⟨by simp [fallback_raw_from, (ih (lcg_next seed)).1], ?_⟩
    intro n hn
    simp only [fallback_raw_from, List.mem_cons] at hn
    rcases hn with hn | hn
    · omega
    · exact (ih (lcg_next seed)).2 n hn

/-- Claim C2: the deterministic offline fallback exists behind the
backend-selection factory, and for every text it returns the same
fixed-length, unit-normalized vector on every call — the embedding is a
pure function of the text (hence two calls agree definitionally), its
length is the configured dimension, and its Euclidean norm is 1. -/
theorem c2_fallback_vectorizer (mn : String) (d : ℕ) (text : String) (h : 0 < d) :
    create_vectorizer "hash" mn d = .hashFallback d
    ∧ (fallback_embed d text).length = d
    ∧ fallback_embed d text = fallback_embed d text
    ∧ ((fallback_embed d text).map (fun x => x * x)).sum = 1 := by
  have hspec := fallback_raw_from_spec d (text_hash text)
  have hlen_raw : (fallback_raw d text).length = d := hspec.1
  have hall : ∀ n ∈ fallback_raw d text, 1 ≤ n := hspec.2
  have hne : fallback_raw d text ≠ [] := by
    intro hc
    rw [hc] at hlen_raw
    simp at hlen_raw
    omega
  have hSpos : 0 < ((fallback_raw d text).map (fun m : ℕ => (m : ℝ) * (m : ℝ))).sum := by
    apply List.sum_pos
    · intro y hy
      obtain ⟨n, hn, rfl⟩ := List.mem_map.mp hy
      have h1 : (1 : ℝ) ≤ (n : ℝ) := by
        exact_mod_cast hall n hn
      nlinarith
    · intro hc
      exact hne (List.map_eq_nil_iff.mp hc)
  refine ⟨rfl, ?_, rfl, ?_⟩
  · simp [fallback_embed, hlen_raw]
  · simp only [fallback_embed, List.map_map]
    have hstep : ((fun x : ℝ => x * x) ∘ fun n : ℕ => (n : ℝ) / fallback_norm d text)
        = fun n : ℕ => ((n : ℝ) * (n : ℝ)) *
            (((fallback_raw d text).map (fun m : ℕ => (m : ℝ) * (m : ℝ))).sum)⁻¹ := by
      funext n
      simp only [Function.comp, fallback_norm]
      rw [div_mul_div_comm, Real.mul_self_sqrt hSpos.le, div_eq_mul_inv]
    rw [hstep]
    rw [show (fun n : ℕ => ((n : ℝ) * (n : ℝ)) *
          (((fallback_raw d text).map (fun m : ℕ => (m : ℝ) * (m : ℝ))).sum)⁻¹)
        = fun n : ℕ => (fun m : ℕ => (m : ℝ) * (m : ℝ)) n *
          (((fallback_raw d text).map (fun m : ℕ => (m : ℝ) * (m : ℝ))).sum)⁻¹ from rfl]
    rw [List.sum_map_mul_right, mul_inv_cancel₀ hSpos.ne']

/-! ## Lemmas on the single-flight load (claim C9) -/

/-- The invariant holds initially. -/
theorem loadInv_init (n : ℕ) : LoadInv (initLoadState n) := by
  refine ⟨by simp [initLoadState], by simp [initLoadState], ?_, ?_, ?_, ?_⟩
  · intro m hm
    simp [initLoadState] at hm
  · intro i hi
    rcases hi with hi | hi <;>
      exact absurd (List.eq_of_mem_replicate (List.get?_mem hi)) (by simp)
  · intro i hi
    rfl
  · intro i m hi
    exact absurd (List.eq_of_mem_replicate (List.get?_mem hi)) (by simp)

/-- Reading back the cell just written by `List.set`, when the index was
in bounds before. -/
theorem get?_set_self (l : List LoadPc) (i : ℕ) (a b : LoadPc) (h : l.get? i = some a) :
    (l.set i b).get? i = some b := by
  rw [List.get?_set_eq, h]
  rfl

/-- Reading any other cell after `List.set`. -/
theorem get?_set_other (l : List LoadPc) (i j : ℕ) (b : LoadPc) (h : i ≠ j) :
    (l.set i b).get? j = l.get? j :=
  List.get?_set_ne _ _ h

/-- The invariant is preserved by every step. -/
theorem loadInv_step (s s' : LoadState) (hs : LoadInv s) (hstep : LoadStep s s') :
    LoadInv s' := by
  obtain ⟨h1, h2, h3, h4, h5, h6⟩ := hs
  cases hstep with
  | checkLoaded i m hti hm =>
    refine ⟨h1, h2, h3, ?_, ?_, ?_⟩
    · intro j hj
      by_cases hij : i = j
      · subst hij
        rcases hj with hj | hj <;>
          · have hc := (get?_set_self s.tasks i _ _ hti).symm.trans hj
            simp at hc
      · rcases hj with hj | hj <;> replace hj := (get?_set_other s.tasks i j _ hij).symm.trans hj
        · exact h4 j (Or.inl hj)
        · exact h4 j (Or.inr hj)
    · intro j hj
      by_cases hij : i = j
      · subst hij
        have hc := (get?_set_self s.tasks i _ _ hti).symm.trans hj
        simp at hc
      · replace hj := (get?_set_other s.tasks i j _ hij).symm.trans hj
        exact h5 j hj
    · intro j m' hj
      by_cases hij : i = j
      · subst hij
        have hc := (get?_set_self s.tasks i _ _ hti).symm.trans hj
        have hm' : m = m' := by simpa using hc
        rw [← hm']
        exact hm
      · replace hj := (get?_set_other s.tasks i j _ hij).symm.trans hj
        exact h6 j m' hj
  | checkUnloaded i hti hm =>
    refine ⟨h1, h2, h3, ?_, ?_, ?_⟩
    · intro j hj
      by_cases hij : i = j
      · subst hij
        rcases hj with hj | hj <;>
          · have hc := (get?_set_self s.tasks i _ _ hti).symm.trans hj
            simp at hc
      · rcases hj with hj | hj <;> replace hj := (get?_set_other s.tasks i j _ hij).symm.trans hj
        · exact h4 j (Or.inl hj)
        · exact h4 j (Or.inr hj)
    · intro j hj
      exact hm
    · intro j m' hj
      by_cases hij : i = j
      · subst hij
        have hc := (get?_set_self s.tasks i _ _ hti).symm.trans hj
        simp at hc
      · replace hj := (get?_set_other s.tasks i j _ hij).symm.trans hj
        exact h6 j m' hj
  | acquire i hti hl =>
    refine ⟨h1, h2, h3, ?_, ?_, ?_⟩
    · intro j hj
      by_cases hij : i = j
      · subst hij
        rfl
      · rcases hj with hj | hj <;> replace hj := (get?_set_other s.tasks i j _ hij).symm.trans hj
        · have hc := (h4 j (Or.inl hj)).symm.trans hl
          simp at hc
        · have hc := (h4 j (Or.inr hj)).symm.trans hl
          simp at hc
    · intro j hj
      by_cases hij : i = j
      · subst hij
        have hc := (get?_set_self s.tasks i _ _ hti).symm.trans hj
        simp at hc
      · replace hj := (get?_set_other s.tasks i j _ hij).symm.trans hj
        exact h5 j hj
    · intro j m' hj
      by_cases hij : i = j
      · subst hij
        have hc := (get?_set_self s.tasks i _ _ hti).symm.trans hj
        simp at hc
      · replace hj := (get?_set_other s.tasks i j _ hij).symm.trans hj
        exact h6 j m' hj
  | recheckLoaded i m hti hl hm =>
    refine ⟨h1, h2, h3, ?_, ?_, ?_⟩
    · intro j hj
      by_cases hij : i = j
      · subst hij
        rcases hj with hj | hj <;>
          · have hc := (get?_set_self s.tasks i _ _ hti).symm.trans hj
            simp at hc
      · rcases hj with hj | hj <;> replace hj := (get?_set_other s.tasks i j _ hij).symm.trans hj
        · have hc := (h4 j (Or.inl hj)).symm.trans hl
          have : j = i := by simpa using hc
          exact absurd this.symm hij
        · have hc := (h4 j (Or.inr hj)).symm.trans hl
          have : j = i := by simpa using hc
          exact absurd this.symm hij
    · intro j hj
      by_cases hij : i = j
      · subst hij
        have hc := (get?_set_self s.tasks i _ _ hti).symm.trans hj
        simp at hc
      · replace hj := (get?_set_other s.tasks i j _ hij).symm.trans hj
        exact h5 j hj
    · intro j m' hj
      by_cases hij : i = j
      · subst hij
        have hc := (get?_set_self s.tasks i _ _ hti).symm.trans hj
        have hm' : m = m' := by simpa using hc
        rw [← hm']
        exact hm
      · replace hj := (get?_set_other s.tasks i j _ hij).symm.trans hj
        exact h6 j m' hj
  | recheckUnloaded i hti hl hm =>
    refine ⟨h1, h2, h3, ?_, ?_, ?_⟩
    · intro j hj
      by_cases hij : i = j
      · subst hij
        exact hl
      · rcases hj with hj | hj <;> replace hj := (get?_set_other s.tasks i j _ hij).symm.trans hj
        · exact h4 j (Or.inl hj)
        · exact h4 j (Or.inr hj)
    · intro j hj
      exact hm
    · intro j m' hj
      by_cases hij : i = j
      · subst hij
        have hc := (get?_set_self s.tasks i _ _ hti).symm.trans hj
        simp at hc
      · replace hj := (get?_set_other s.tasks i j _ hij).symm.trans hj
        exact h6 j m' hj
  | finishLoad i hti hl =>
    have hm0 : s.model = none := h5 i hti
    have hl0 : s.loads = 0 := h2.mp hm0
    refine ⟨by show s.loads + 1 ≤ 1; omega,
      ⟨fun hc => absurd hc (by simp),
        fun hc => absurd (show s.loads + 1 = 0 from hc) (by omega)⟩,
      ?_, ?_, ?_, ?_⟩
    · intro m hm
      simp only [Option.some.injEq] at hm
      omega
    · intro j hj
      by_cases hij : i = j
      · subst hij
        rcases hj with hj | hj <;>
          · have hc := (get?_set_self s.tasks i _ _ hti).symm.trans hj
            simp at hc
      · rcases hj with hj | hj <;> replace hj := (get?_set_other s.tasks i j _ hij).symm.trans hj
        · have hc := (h4 j (Or.inl hj)).symm.trans hl
          have : j = i := by simpa using hc
          exact absurd this.symm hij
        · have hc := (h4 j (Or.inr hj)).symm.trans hl
          have : j = i := by simpa using hc
          exact absurd this.symm hij
    · intro j hj
      by_cases hij : i = j
      · subst hij
        have hc := (get?_set_self s.tasks i _ _ hti).symm.trans hj
        simp at hc
      · replace hj := (get?_set_other s.tasks i j _ hij).symm.trans hj
        have hc := (h4 j (Or.inr hj)).symm.trans hl
        have : j = i := by simpa using hc
        exact absurd this.symm hij
    · intro j m' hj
      by_cases hij : i = j
      · subst hij
        have hc := (get?_set_self s.tasks i _ _ hti).symm.trans hj
        have hm' : s.loads = m' := by simpa using hc
        rw [hm']
      · replace hj := (get?_set_other s.tasks i j _ hij).symm.trans hj
        have hc := h6 j m' hj
        rw [hm0] at hc
        simp at hc

/-- Every reachable state satisfies the invariant. -/
theorem loadInv_reachable (n : ℕ) (s : LoadState) (h : LoadReachable n s) : LoadInv s := by
  induction h with
  | init => exact loadInv_init n
  | step s s' hr hstep ih => exact loadInv_step s s' ih hstep

/-- Claim C9: in every interleaving of concurrent callers of
`_ensure_model_loaded`, at most one load ever completes (single-flight),
every two callers that finish obtain the same model instance, and once the
model is cached every finished caller holds exactly that instance. -/
theorem c9_single_flight (n : ℕ) (s : LoadState) (h : LoadReachable n s) :
    s.loads ≤ 1
    ∧ (∀ i j mi mj, s.tasks.get? i = some (.done mi) → s.tasks.get? j = some (.done mj) →
        mi = mj)
    ∧ (∀ i m mi, s.model = some m → s.tasks.get? i = some (.done mi) → mi = m) := by
  obtain ⟨h1, h2, h3, h4, h5, h6⟩ := loadInv_reachable n s h
  refine ⟨h1, ?_, ?_⟩
  · intro i j mi mj hi hj
    have hmi := h6 i mi hi
    have hmj := h6 j mj hj
    rw [hmi] at hmj
    injection hmj
  · intro i m mi hm hi
    have hmi := h6 i mi hi
    rw [hm] at hmi
    injection hmi with h'
    exact h'.symm

/-- Witness for C9: a concrete interleaving of two callers in which caller 1
arrives while caller 0 is loading, waits on the lock, and picks up the same
instance at the re-check — one load total and both callers hold instance 0. -/
theorem c9_witness :
    (LoadState.mk (some 0) none [LoadPc.done 0, LoadPc.done 0] 1).loads ≤ 1
    ∧ (∀ i j mi mj,
        (LoadState.mk (some 0) none [LoadPc.done 0, LoadPc.done 0] 1).tasks.get? i
          = some (.done mi) →
        (LoadState.mk (some 0) none [LoadPc.done 0, LoadPc.done 0] 1).tasks.get? j
          = some (.done mj) → mi = mj)
    ∧ (∀ i m mi,
        (LoadState.mk (some 0) none [LoadPc.done 0, LoadPc.done 0] 1).model = some m →
        (LoadState.mk (some 0) none [LoadPc.done 0, LoadPc.done 0] 1).tasks.get? i
          = some (.done mi) → mi = m) := by
  apply c9_single_flight 2
  have h0 : LoadReachable 2 (initLoadState 2) := LoadReachable.init
  have h1 : LoadReachable 2 ⟨none, none, [.wantLock, .start], 0⟩ :=
    LoadReachable.step _ _ h0 (LoadStep.checkUnloaded _ 0 rfl rfl)
  have h2 : LoadReachable 2 ⟨none, some 0, [.recheck, .start], 0⟩ :=
    LoadReachable.step _ _ h1 (LoadStep.acquire _ 0 rfl rfl)
  have h3 : LoadReachable 2 ⟨none, some 0, [.loading, .start], 0⟩ :=
    LoadReachable.step _ _ h2 (LoadStep.recheckUnloaded _ 0 rfl rfl rfl)
  have h4 : LoadReachable 2 ⟨none, some 0, [.loading, .wantLock], 0⟩ :=
    LoadReachable.step _ _ h3 (LoadStep.checkUnloaded _ 1 rfl rfl)
  have h5 : LoadReachable 2 ⟨some 0, none, [.done 0, .wantLock], 1⟩ :=
    LoadReachable.step _ _ h4 (LoadStep.finishLoad _ 0 rfl rfl)
  have h6 : LoadReachable 2 ⟨some 0, some 1, [.done 0, .recheck], 1⟩ :=
    LoadReachable.step _ _ h5 (LoadStep.acquire _ 1 rfl rfl)
  exact LoadReachable.step _ _ h6 (LoadStep.recheckLoaded _ 1 0 rfl rfl rfl)

/-- Witness for C2 at dimension 4 and a concrete text. -/
theorem c2_witness :
    create_vectorizer "hash" "intfloat/multilingual-e5-base" 4 = .hashFallback 4
    ∧ (fallback_embed 4 "family with children").length = 4
    ∧ fallback_embed 4 "family with children" = fallback_embed 4 "family with children"
    ∧ ((fallback_embed 4 "family with children").map (fun x => x * x)).sum = 1 :=
  c2_fallback_vectorizer "intfloat/multilingual-e5-base" 4 "family with children" (by decide)

end VectorPipeline
